import Mathlib

/-!
Verification of the Dynatrace GitHub Action core (`src/dynatrace.ts`).

A shallow embedding of the metric/event delivery core of the
`dynatrace-github-action` repository, together with theorems settling the
frozen claims about it.

Modelling conventions:
* TypeScript strings are Lean `String`s (lists of unicode characters);
  `String.toLowerCase` and the regex character class `[^.0-9a-z_-]/i` are
  modelled at ASCII granularity, character by character, using the numeric
  code points (46 = `.`, 48–57 = `0`–`9`, 65–90 = `A`–`Z`, 95 = `_`,
  97–122 = `a`–`z`, 45 = `-`).
* `Map<string, string>` dimension records are insertion-ordered association
  lists `List (String × String)`, matching the iteration order of
  `Object.entries` on the plain records the action receives.
* Optional TypeScript fields become `Option`s.
* The HTTP client is an oracle: each `post` call consumes an `HttpOutcome`
  (a response with an optional status code, or a thrown connection error).
  A run of `sendMetrics`/`sendEvents` produces a trace: the log entries, the
  requests issued, and whatever error escapes the function boundary.
-/

namespace Dynatrace

/-- One character of the kept class of the regex `[^.0-9a-z_-]/gi`:
`.`, `0`–`9`, `a`–`z`, `_`, `-`, and (because of the `i` flag) `A`–`Z`. -/
def keepChar (c : Char) : Bool :=
  c.toNat = 46 || (48 ≤ c.toNat && c.toNat ≤ 57) || (97 ≤ c.toNat && c.toNat ≤ 122) ||
    (65 ≤ c.toNat && c.toNat ≤ 90) || c.toNat = 95 || c.toNat = 45

/-- `String.prototype.toLowerCase`, at ASCII granularity: map `A`–`Z`
(codes 65–90) to `a`–`z` (codes 97–122), leave everything else alone. -/
def jsLowerChar (c : Char) : Char :=
  if 65 ≤ c.toNat ∧ c.toNat ≤ 90 then Char.ofNat (c.toNat + 32) else c

/-- `s.toLowerCase()` applied to every character of the string. -/
def jsToLowerCase (s : String) : String :=
  String.mk (s.data.map jsLowerChar)

/-- `s.replace(/[^.0-9a-z_-]/gi, '_')`: every character outside the kept
class is replaced by `_`. -/
def jsReplaceUnsafe (s : String) : String :=
  String.mk (s.data.map (fun c => if keepChar c then c else '_'))

/-- `safeMetricKey` from `dynatrace.ts`:
`mkey.toLowerCase().replace(/[^.0-9a-z_-]/gi, '_')`. -/
def safeMetricKey (mkey : String) : String :=
  jsReplaceUnsafe (jsToLowerCase mkey)

/-- `safeDimKey` from `dynatrace.ts`:
`dkey.toLowerCase().replace(/[^.0-9a-z_-]/gi, '_')`. -/
def safeDimKey (dkey : String) : String :=
  jsReplaceUnsafe (jsToLowerCase dkey)

/-- `safeDimValue` from `dynatrace.ts`: the identity. -/
def safeDimValue (val : String) : String :=
  val

/-- One character of the spec's output class `^[.0-9a-z_-]*$`:
`.` (46), `0`–`9` (48–57), `a`–`z` (97–122), `_` (95), `-` (45). -/
def isSafeChar (c : Char) : Bool :=
  c.toNat = 46 || (48 ≤ c.toNat && c.toNat ≤ 57) || (97 ≤ c.toNat && c.toNat ≤ 122) ||
    c.toNat = 95 || c.toNat = 45

/-- An ASCII uppercase letter `A`–`Z` (codes 65–90). -/
def isUpperAscii (c : Char) : Bool :=
  65 ≤ c.toNat && c.toNat ≤ 90

/-- A metric record (`Metric` interface of `dynatrace.ts`): `metric` name,
`value` text, optional insertion-ordered dimensions. -/
structure Metric where
  metric : String
  value : String
  dimensions : Option (List (String × String))
deriving Repr, DecidableEq

/-- One iteration of the body-building loop of `sendMetrics`: append to the
accumulated `lines` the sanitized metric key, then `,key="value"` for every
dimension whose value is non-empty (in insertion order), then a space, the
raw value and a newline. -/
def encodeMetric (lines : String) (m : Metric) : String :=
  let lines := lines ++ safeMetricKey m.metric
  let lines :=
    match m.dimensions with
    | some dims =>
        dims.foldl
          (fun acc kv =>
            if kv.2.length > 0 then
              acc ++ "," ++ safeDimKey kv.1 ++ "=\"" ++ safeDimValue kv.2 ++ "\""
            else acc)
          lines
    | none => lines
  lines ++ " " ++ m.value ++ "\n"

/-- The whole body-building loop of `sendMetrics`: starting from the empty
string, fold `encodeMetric` over the metric list. -/
def encodeMetrics (metrics : List Metric) : String :=
  metrics.foldl encodeMetric ""

/-- An event record (`Event` interface of `dynatrace.ts`). -/
structure Event where
  type : String
  source : String
  title : Option String := none
  description : Option String := none
  deploymentName : Option String := none
  deploymentVersion : Option String := none
  deploymentProject : Option String := none
  remediationAction : Option String := none
  ciBackLink : Option String := none
  entities : Option (List String) := none
  tags : Option (List String) := none
  dimensions : Option (List (String × String)) := none
deriving Repr, DecidableEq

/-- A tag of a tag attach rule (`Tag` interface of `dynatrace.ts`). -/
structure Tag where
  context : String
  key : String
  value : Option String := none
deriving Repr, DecidableEq

/-- `TagAttachRule` interface of `dynatrace.ts` (the spec's data-model
section calls the `meTypes` field `matchTypes`). -/
structure TagAttachRule where
  meTypes : List String
  tags : List Tag
deriving Repr, DecidableEq

/-- JavaScript `String.prototype.split` with a one-character separator, on
the underlying character list: split at every occurrence of `sep`, keeping
empty pieces (so the result always has one more piece than there are
separators). -/
def jsSplitChars (sep : Char) : List Char → List (List Char)
  | [] => [[]]
  | c :: rest =>
      let r := jsSplitChars sep rest
      if c = sep then [] :: r
      else
        match r with
        | [] => [[c]]
        | h :: t => (c :: h) :: t

/-- `t.split(sep)` for a one-character separator. -/
def jsSplit (t : String) (sep : Char) : List String :=
  (jsSplitChars sep t.data).map String.mk

/-- The per-tag-string part of the extraction loop of `sendEvents`: split the
tag on `:`; two parts give a key-only rule, three parts a key/value rule,
anything else no rule. -/
def parseTag (t : String) : Option TagAttachRule :=
  match jsSplit t ':' with
  | [a, b] => some ⟨[a], [⟨"CONTEXTLESS", b, none⟩]⟩
  | [a, b, c] => some ⟨[a], [⟨"CONTEXTLESS", b, some c⟩]⟩
  | _ => none

/-- The whole extraction loop of `sendEvents`: push the rule of each
parseable tag onto the (initially empty) `tagAttachRules` array. -/
def extractTagRules (tags : List String) : List TagAttachRule :=
  tags.foldl
    (fun acc t =>
      match parseTag t with
      | some r => acc ++ [r]
      | none => acc)
    []

/-- The `attachRules` object built inside `sendEvents`. -/
structure AttachRules where
  entityIds : Option (List String)
  tagRule : List TagAttachRule
deriving Repr, DecidableEq

/-- The two payload shapes built by `sendEvents`: the standard-event shape
and the custom-deployment shape. -/
inductive Payload where
  | standard (eventType : String) (attachRules : AttachRules) (source : String)
      (description : Option String) (title : Option String)
      (customProperties : Option (List (String × String)))
  | deployment (eventType : String) (attachRules : AttachRules) (source : String)
      (deploymentName : Option String) (deploymentVersion : Option String)
      (deploymentProject : Option String) (remediationAction : Option String)
      (ciBackLink : Option String)
      (customProperties : Option (List (String × String)))
deriving Repr, DecidableEq

/-- The `attachRules` field of either payload shape. -/
def Payload.attachRules : Payload → AttachRules
  | .standard _ a _ _ _ _ => a
  | .deployment _ a _ _ _ _ _ _ _ => a

/-- The `customProperties` field of either payload shape. -/
def Payload.customProperties : Payload → Option (List (String × String))
  | .standard _ _ _ _ _ d => d
  | .deployment _ _ _ _ _ _ _ _ d => d

/-- The payload-shape selection of `sendEvents` (lines 154–196): five event
types take the standard shape, `CUSTOM_DEPLOYMENT` takes the deployment
shape, anything else yields no payload (`send` stays `false`). -/
def buildPayload (e : Event) : Option Payload :=
  let tagAttachRules := extractTagRules (e.tags.getD [])
  if e.type = "CUSTOM_INFO" ∨ e.type = "AVAILABILITY_EVENT" ∨ e.type = "ERROR_EVENT" ∨
      e.type = "PERFORMANCE_EVENT" ∨ e.type = "RESOURCE_CONTENTION" then
    some (.standard e.type ⟨e.entities, tagAttachRules⟩ e.source e.description e.title
      e.dimensions)
  else if e.type = "CUSTOM_DEPLOYMENT" then
    some (.deployment e.type ⟨e.entities, tagAttachRules⟩ e.source e.deploymentName
      e.deploymentVersion e.deploymentProject e.remediationAction e.ciBackLink e.dimensions)
  else
    none

/-- An HTTP client as configured by `getClient`: a user-agent string and
default headers. -/
structure HttpClient where
  userAgent : String
  headers : List (String × String)
deriving Repr, DecidableEq

/-- `getClient` from `dynatrace.ts`: client named `dt-http-client` with an
`Authorization: Api-Token <token>` header and the given content type. -/
def getClient (token : String) (content : String) : HttpClient :=
  ⟨"dt-http-client", [("Authorization", "Api-Token " ++ token), ("Content-Type", content)]⟩

/-- What one `http.post` call does, as decided by the environment: either a
response arrives (with an optional status code and a status message), or the
call itself throws a connection-level error. -/
inductive HttpOutcome where
  | response (statusCode : Option Nat) (statusMessage : String)
  | connectionError (msg : String)
deriving Repr, DecidableEq

/-- The fallible part of each delivery (the body of the `try` block after the
`post`): a thrown connection error propagates, and a response whose status
code is `undefined` or `≥ 400` raises `HTTP request failed: <message>`. -/
def deliveryResult : HttpOutcome → Except String Unit
  | .connectionError m => .error m
  | .response none m => .error ("HTTP request failed: " ++ m)
  | .response (some c) m =>
      if c ≥ 400 then .error ("HTTP request failed: " ++ m) else .ok ()

/-- One log entry: `core.info` of a string, `core.info` of a serialized
payload, or `core.error`. -/
inductive LogEntry where
  | info (msg : String)
  | infoPayload (p : Payload)
  | error (msg : String)
deriving Repr, DecidableEq

/-- A POST request of the metric pipeline: the client it is issued on, the
target URL and the line-protocol body. -/
structure MetricRequest where
  client : HttpClient
  url : String
  body : String
deriving Repr, DecidableEq

/-- A POST request of the event pipeline: the client, the target URL and the
payload that is JSON-serialized into the body. -/
structure EventRequest where
  client : HttpClient
  url : String
  body : Payload
deriving Repr, DecidableEq

/-- Observable result of a `sendMetrics` run: logs, issued requests, and the
error (if any) escaping the function boundary. -/
structure MetricTrace where
  logs : List LogEntry
  requests : List MetricRequest
  raised : Option String
deriving Repr, DecidableEq

/-- Observable result of a `sendEvents` run. -/
structure EventTrace where
  logs : List LogEntry
  requests : List EventRequest
  raised : Option String
deriving Repr, DecidableEq

/-- `sendMetrics` from `dynatrace.ts`, with the HTTP environment made
explicit: log the count, build the line-protocol body, log it, POST it to
`<url>/api/v2/metrics/ingest`, and catch any delivery failure, logging it
with `core.error` instead of rethrowing. -/
def sendMetrics (url : String) (token : String) (metrics : List Metric)
    (o : HttpOutcome) : MetricTrace :=
  let http := getClient token "text/plain"
  let lines := encodeMetrics metrics
  let baseLogs := [LogEntry.info ("Sending " ++ toString metrics.length ++ " metrics"),
    LogEntry.info lines]
  let req : MetricRequest := ⟨http, url ++ "/api/v2/metrics/ingest", lines⟩
  match deliveryResult o with
  | .ok _ => ⟨baseLogs, [req], none⟩
  | .error m => ⟨baseLogs ++ [LogEntry.error m], [req], none⟩

/-- The `core.info` line announcing which payload shape is being prepared. -/
def prepLog : Payload → LogEntry
  | .standard _ _ _ _ _ _ => .info "Preparing a standard event"
  | .deployment _ _ _ _ _ _ _ _ _ => .info "Preparing a custom deployment event"

/-- The per-event loop of `sendEvents`, from the `k`-th POST on: build the
payload of each event in turn; an unsupported type only logs; otherwise log
the payload, POST it to `<url>/api/v1/events` (the `k`-th call of the HTTP
environment `b`), catch-and-log any delivery failure, and continue with the
remaining events. -/
def sendEventsFrom (url : String) (http : HttpClient) (b : Nat → HttpOutcome) :
    List Event → Nat → EventTrace
  | [], _ => ⟨[], [], none⟩
  | e :: rest, k =>
      match buildPayload e with
      | none =>
          let t := sendEventsFrom url http b rest k
          ⟨LogEntry.info "Unsupported event type!" :: t.logs, t.requests, t.raised⟩
      | some p =>
          let req : EventRequest := ⟨http, url ++ "/api/v1/events", p⟩
          let dlogs :=
            match deliveryResult (b k) with
            | .ok _ => []
            | .error m => [LogEntry.error m]
          let t := sendEventsFrom url http b rest (k + 1)
          ⟨prepLog p :: LogEntry.infoPayload p :: (dlogs ++ t.logs),
            req :: t.requests, t.raised⟩

/-- `sendEvents` from `dynatrace.ts`, with the HTTP environment made
explicit: log the count, build a JSON client, and run the per-event loop. -/
def sendEvents (url : String) (token : String) (events : List Event)
    (b : Nat → HttpOutcome) : EventTrace :=
  let http := getClient token "application/json"
  let t := sendEventsFrom url http b events 0
  ⟨LogEntry.info ("Sending " ++ toString events.length ++ " events") :: t.logs,
    t.requests, t.raised⟩

/-- The tag-to-rule mapping as the spec words it (§4.4): split the tag on
`:`; exactly 2 parts give one rule whose single tag has the second part as
key and no value; exactly 3 parts give one rule whose single tag has the
second part as key and the third as value; any other part count gives no
rule. -/
def specTagRule (t : String) : Option TagAttachRule :=
  let parts := jsSplit t ':'
  if parts.length = 2 then
    some ⟨[parts.headD ""], [⟨"CONTEXTLESS", parts.getD 1 "", none⟩]⟩
  else if parts.length = 3 then
    some ⟨[parts.headD ""], [⟨"CONTEXTLESS", parts.getD 1 "", some (parts.getD 2 "")⟩]⟩
  else
    none

end Dynatrace

namespace Dynatrace

-- sanity examples (spec §8)
example : encodeMetrics [] = "" := rfl

example :
    encodeMetrics [⟨"My.Metric", "1.0", some [("Proj", "x"), ("Empty", "")]⟩] =
      "my.metric,proj=\"x\" 1.0\n" := rfl

example : parseTag "HOST:env" = some ⟨["HOST"], [⟨"CONTEXTLESS", "env", none⟩]⟩ := rfl
example : parseTag "HOST:env:prod" = some ⟨["HOST"], [⟨"CONTEXTLESS", "env", some "prod"⟩]⟩ := rfl
example : parseTag "HOST" = none := rfl
example : parseTag "A:B:C:D" = none := rfl

lemma parseTag_eq_specTagRule (t : String) : parseTag t = specTagRule t := by
  unfold parseTag specTagRule
  rcases jsSplit t ':' with _ | ⟨a, _ | ⟨b, _ | ⟨c, _ | ⟨d, rest⟩⟩⟩⟩ <;> simp

lemma extractTagRules_from (tags : List String) (acc : List TagAttachRule) :
    tags.foldl
        (fun acc t =>
          match parseTag t with
          | some r => acc ++ [r]
          | none => acc)
        acc =
      acc ++ tags.filterMap parseTag := by
  induction tags generalizing acc with
  | nil => simp
  | cons t rest ih =>
      cases h : parseTag t <;> simp [List.foldl_cons, h, ih]

lemma extractTagRules_eq_filterMap (tags : List String) :
    extractTagRules tags = tags.filterMap parseTag := by
  simpa using extractTagRules_from tags []

/-- C4: tag-rule extraction maps each tag by splitting on `:` — 2 parts give
a key-only rule, 3 parts a key/value rule, any other part count no rule —
and the output rules are in the order of the surviving input tags (the
extraction loop is exactly an order-preserving `filterMap` by the spec's
per-tag mapping). -/
theorem tag_extraction_filterMap (tags : List String) :
    extractTagRules tags = tags.filterMap specTagRule := by
  rw [extractTagRules_eq_filterMap]
  induction tags with
  | nil => rfl
  | cons t rest ih => simp [List.filterMap_cons, parseTag_eq_specTagRule, ih]

/-- C5: every rule derived from a parseable tag string has `meTypes` (the
spec's `matchTypes`) equal to the one-element sequence holding the tag's
first colon-delimited part, and every contained tag has context
`CONTEXTLESS`. -/
theorem tagRule_shape (t : String) (r : TagAttachRule) (h : parseTag t = some r) :
    r.meTypes = [(jsSplit t ':').headD ""] ∧
      ∀ tg ∈ r.tags, tg.context = "CONTEXTLESS" := by
  rw [parseTag_eq_specTagRule] at h
  simp only [specTagRule] at h
  split at h
  · injection h with h
    subst h
    simp
  · split at h
    · injection h with h
      subst h
      simp
    · cases h

/-- Witness for C5 at the concrete tag `HOST:env`. -/
theorem tagRule_shape_witness :
    (⟨["HOST"], [⟨"CONTEXTLESS", "env", none⟩]⟩ : TagAttachRule).meTypes =
        [(jsSplit "HOST:env" ':').headD ""] ∧
      ∀ tg ∈ (⟨["HOST"], [⟨"CONTEXTLESS", "env", none⟩]⟩ : TagAttachRule).tags,
        tg.context = "CONTEXTLESS" :=
  tagRule_shape "HOST:env" ⟨["HOST"], [⟨"CONTEXTLESS", "env", none⟩]⟩ rfl

/-- C1: encoding the single metric list
`[(My.Metric, 1.0, dims Proj ↦ x, Empty ↦ ε)]` with the body-building loop
of `sendMetrics` yields exactly `my.metric,proj="x" 1.0` plus newline: the
empty-valued dimension is omitted, the non-empty one is emitted with its key
lowercased, and the value is appended verbatim after a single space. -/
theorem encode_single_metric_example :
    encodeMetrics [⟨"My.Metric", "1.0", some [("Proj", "x"), ("Empty", "")]⟩] =
      "my.metric,proj=\"x\" 1.0\n" := rfl

/-- C9: the metric-name sanitizer and the dimension-key sanitizer are
extensionally equal, so metric names and dimension keys undergo identical
normalization. -/
theorem safeMetricKey_eq_safeDimKey (s : String) : safeMetricKey s = safeDimKey s := rfl

/-- C7: one `sendMetrics` invocation issues exactly one POST, to
`<url>/api/v2/metrics/ingest`, on a client with the `Api-Token`
authorization header and `text/plain` content type, with the full encoded
blob as the body — whatever the metric list and the HTTP outcome. -/
theorem sendMetrics_single_post (url token : String) (metrics : List Metric)
    (o : HttpOutcome) :
    (sendMetrics url token metrics o).requests =
      [⟨⟨"dt-http-client",
          [("Authorization", "Api-Token " ++ token), ("Content-Type", "text/plain")]⟩,
        url ++ "/api/v2/metrics/ingest", encodeMetrics metrics⟩] := by
  cases h : deliveryResult o <;> simp [sendMetrics, getClient, h]

lemma sendEventsFrom_requests (url : String) (http : HttpClient) (b : Nat → HttpOutcome)
    (events : List Event) (k : Nat) :
    (sendEventsFrom url http b events k).requests =
      (events.filterMap buildPayload).map
        (fun p => ⟨http, url ++ "/api/v1/events", p⟩) := by
  induction events generalizing k with
  | nil => rfl
  | cons e rest ih =>
      cases h : buildPayload e with
      | none => simp [sendEventsFrom, h, ih]
      | some p =>
          cases hd : deliveryResult (b k) <;>
            simp [sendEventsFrom, h, hd, ih]

/-- C6: delivery failure of one event does not prevent later events — the
list of POSTs issued by `sendEvents` does not depend on the HTTP outcomes at
all, and is exactly the payload-producing events' requests in input order
(the loop awaits each POST before building the next). -/
theorem sendEvents_requests_independent_of_outcomes (url token : String)
    (events : List Event) (b : Nat → HttpOutcome) :
    (sendEvents url token events b).requests =
      (events.filterMap buildPayload).map
        (fun p => ⟨getClient token "application/json", url ++ "/api/v1/events", p⟩) := by
  simp [sendEvents, sendEventsFrom_requests]

/-- C2: payload-shape selection of `sendEvents` — the five standard types
produce the standard shape with `customProperties` equal to the event's
dimensions; `CUSTOM_DEPLOYMENT` produces the deployment shape; any other
type produces no payload and issues no POST for that event. -/
theorem event_classification (url token : String) (b : Nat → HttpOutcome) (e : Event) :
    (e.type = "CUSTOM_INFO" ∨ e.type = "AVAILABILITY_EVENT" ∨ e.type = "ERROR_EVENT" ∨
        e.type = "PERFORMANCE_EVENT" ∨ e.type = "RESOURCE_CONTENTION" →
      buildPayload e =
          some (.standard e.type ⟨e.entities, extractTagRules (e.tags.getD [])⟩ e.source
            e.description e.title e.dimensions) ∧
        (buildPayload e).map Payload.customProperties = some e.dimensions) ∧
    (e.type = "CUSTOM_DEPLOYMENT" →
      buildPayload e =
        some (.deployment e.type ⟨e.entities, extractTagRules (e.tags.getD [])⟩ e.source
          e.deploymentName e.deploymentVersion e.deploymentProject e.remediationAction
          e.ciBackLink e.dimensions)) ∧
    (e.type ≠ "CUSTOM_INFO" → e.type ≠ "AVAILABILITY_EVENT" → e.type ≠ "ERROR_EVENT" →
      e.type ≠ "PERFORMANCE_EVENT" → e.type ≠ "RESOURCE_CONTENTION" →
      e.type ≠ "CUSTOM_DEPLOYMENT" →
      buildPayload e = none ∧ (sendEvents url token [e] b).requests = []) := by
  refine ⟨fun h => ?_, fun h => ?_, fun h1 h2 h3 h4 h5 h6 => ?_⟩
  · have hb : buildPayload e =
        some (.standard e.type ⟨e.entities, extractTagRules (e.tags.getD [])⟩ e.source
          e.description e.title e.dimensions) := by
      simp only [buildPayload]
      rw [if_pos h]
    exact ⟨hb, by rw [hb]; rfl⟩
  · have hstd : ¬(e.type = "CUSTOM_INFO" ∨ e.type = "AVAILABILITY_EVENT" ∨
        e.type = "ERROR_EVENT" ∨ e.type = "PERFORMANCE_EVENT" ∨
        e.type = "RESOURCE_CONTENTION") := by
      rw [h]; decide
    simp only [buildPayload]
    rw [if_neg hstd, if_pos h]
  · have hb : buildPayload e = none := by
      simp only [buildPayload]
      rw [if_neg (by simp [h1, h2, h3, h4, h5]), if_neg h6]
    constructor
    · exact hb
    · simp [sendEvents, sendEventsFrom_requests, List.filterMap, hb]

/-- Witness for C2 at three concrete events: a `CUSTOM_INFO` event, a
`CUSTOM_DEPLOYMENT` event, and an event of the unsupported type
`UNKNOWN_TYPE`. -/
theorem event_classification_witness :
    (buildPayload ⟨"CUSTOM_INFO", "GitHub", none, none, none, none, none, none, none,
          none, none, some [("owner", "wolfgang")]⟩).map Payload.customProperties =
        some (some [("owner", "wolfgang")]) ∧
      buildPayload ⟨"CUSTOM_DEPLOYMENT", "GitHub", none, none, some "GitHub Action", none,
          none, none, none, none, none, none⟩ =
        some (.deployment "CUSTOM_DEPLOYMENT" ⟨none, []⟩ "GitHub" (some "GitHub Action")
          none none none none none) ∧
      buildPayload ⟨"UNKNOWN_TYPE", "GitHub", none, none, none, none, none, none, none,
          none, none, none⟩ = none ∧
      (sendEvents "https://dt" "tok"
          [⟨"UNKNOWN_TYPE", "GitHub", none, none, none, none, none, none, none, none,
            none, none⟩]
          (fun _ => .response (some 200) "OK")).requests = [] := by
  refine ⟨((event_classification "https://dt" "tok" (fun _ => .response (some 200) "OK")
      ⟨"CUSTOM_INFO", "GitHub", none, none, none, none, none, none, none, none, none,
        some [("owner", "wolfgang")]⟩).1 (Or.inl rfl)).2, ?_, ?_, ?_⟩
  · exact (event_classification "https://dt" "tok" (fun _ => .response (some 200) "OK")
      ⟨"CUSTOM_DEPLOYMENT", "GitHub", none, none, some "GitHub Action", none, none, none,
        none, none, none, none⟩).2.1 rfl
  · exact ((event_classification "https://dt" "tok" (fun _ => .response (some 200) "OK")
      ⟨"UNKNOWN_TYPE", "GitHub", none, none, none, none, none, none, none, none, none,
        none⟩).2.2 (by decide) (by decide) (by decide) (by decide) (by decide)
        (by decide)).1
  · exact ((event_classification "https://dt" "tok" (fun _ => .response (some 200) "OK")
      ⟨"UNKNOWN_TYPE", "GitHub", none, none, none, none, none, none, none, none, none,
        none⟩).2.2 (by decide) (by decide) (by decide) (by decide) (by decide)
        (by decide)).2

/-- C10: an event of a supported type with absent or empty `tags` is still
built and POSTed, with an empty `tagRule` — the absence of tags never causes
an event to be skipped. -/
theorem no_tags_still_sent (url token : String) (b : Nat → HttpOutcome) (e : Event)
    (htype : e.type = "CUSTOM_INFO" ∨ e.type = "AVAILABILITY_EVENT" ∨
      e.type = "ERROR_EVENT" ∨ e.type = "PERFORMANCE_EVENT" ∨
      e.type = "RESOURCE_CONTENTION" ∨ e.type = "CUSTOM_DEPLOYMENT")
    (htags : e.tags = none ∨ e.tags = some []) :
    ∃ p, buildPayload e = some p ∧ p.attachRules.tagRule = [] ∧
      (sendEvents url token [e] b).requests =
        [⟨getClient token "application/json", url ++ "/api/v1/events", p⟩] := by
  have hrules : extractTagRules (e.tags.getD []) = [] := by
    rcases htags with h | h <;> rw [h] <;> rfl
  have hb : ∃ p, buildPayload e = some p ∧ p.attachRules.tagRule = [] := by
    have hsplit : (e.type = "CUSTOM_INFO" ∨ e.type = "AVAILABILITY_EVENT" ∨
        e.type = "ERROR_EVENT" ∨ e.type = "PERFORMANCE_EVENT" ∨
        e.type = "RESOURCE_CONTENTION") ∨ e.type = "CUSTOM_DEPLOYMENT" := by
      tauto
    rcases hsplit with h | h
    · refine ⟨.standard e.type ⟨e.entities, extractTagRules (e.tags.getD [])⟩ e.source
        e.description e.title e.dimensions, ?_, ?_⟩
      · simp only [buildPayload]
        rw [if_pos h]
      · simp [Payload.attachRules, hrules]
    · refine ⟨.deployment e.type ⟨e.entities, extractTagRules (e.tags.getD [])⟩ e.source
        e.deploymentName e.deploymentVersion e.deploymentProject e.remediationAction
        e.ciBackLink e.dimensions, ?_, ?_⟩
      · simp only [buildPayload]
        rw [if_neg (by rw [h]; decide), if_pos h]
      · simp [Payload.attachRules, hrules]
  obtain ⟨p, hp, hrule⟩ := hb
  exact ⟨p, hp, hrule, by simp [sendEvents, sendEventsFrom_requests, List.filterMap, hp]⟩

/-- Witness for C10 at a concrete `CUSTOM_INFO` event with no tags. -/
theorem no_tags_still_sent_witness :
    ∃ p, buildPayload ⟨"CUSTOM_INFO", "GitHub", some "Successful Build", none, none, none,
        none, none, none, none, none, none⟩ = some p ∧
      p.attachRules.tagRule = [] ∧
      (sendEvents "https://dt" "tok"
          [⟨"CUSTOM_INFO", "GitHub", some "Successful Build", none, none, none, none,
            none, none, none, none, none⟩]
          (fun _ => .response (some 200) "OK")).requests =
        [⟨getClient "tok" "application/json", "https://dt" ++ "/api/v1/events", p⟩] :=
  no_tags_still_sent "https://dt" "tok" (fun _ => .response (some 200) "OK")
    ⟨"CUSTOM_INFO", "GitHub", some "Successful Build", none, none, none, none, none, none,
      none, none, none⟩
    (Or.inl rfl) (Or.inl rfl)

lemma sendEventsFrom_raised (url : String) (http : HttpClient) (b : Nat → HttpOutcome)
    (events : List Event) (k : Nat) :
    (sendEventsFrom url http b events k).raised = none := by
  induction events generalizing k with
  | nil => rfl
  | cons e rest ih =>
      cases h : buildPayload e with
      | none => simp [sendEventsFrom, h, ih]
      | some p =>
          cases hd : deliveryResult (b k) <;> simp [sendEventsFrom, h, hd, ih]

lemma sendEventsFrom_error_logged (url : String) (http : HttpClient)
    (b : Nat → HttpOutcome) (events : List Event) (k : Nat) (i : Nat) (m : String)
    (hi : i < (sendEventsFrom url http b events k).requests.length)
    (he : deliveryResult (b (k + i)) = .error m) :
    LogEntry.error m ∈ (sendEventsFrom url http b events k).logs := by
  induction events generalizing k i with
  | nil => simp [sendEventsFrom] at hi
  | cons e rest ih =>
      cases h : buildPayload e with
      | none =>
          simp only [sendEventsFrom, h] at hi ⊢
          exact List.mem_cons_of_mem _ (ih k i hi he)
      | some p =>
          cases i with
          | zero =>
              rw [Nat.add_zero] at he
              simp [sendEventsFrom, h, he]
          | succ j =>
              have hb : k + (j + 1) = (k + 1) + j := by omega
              rw [hb] at he
              simp only [sendEventsFrom, h, List.length_cons] at hi
              have hj : j < (sendEventsFrom url http b rest (k + 1)).requests.length := by
                omega
              have hm := ih (k + 1) j hj he
              cases hd : deliveryResult (b k) <;>
                simp [sendEventsFrom, h, hd, hm]

/-- C3: for every input and every behaviour of the HTTP client — an error
status, a missing status code, or a thrown connection error — `sendMetrics`
and `sendEvents` both return normally: nothing escapes the function boundary
and each delivery failure is only logged. -/
theorem delivery_failures_not_propagated (url token : String) (metrics : List Metric)
    (events : List Event) (o : HttpOutcome) (b : Nat → HttpOutcome) :
    (sendMetrics url token metrics o).raised = none ∧
    (sendEvents url token events b).raised = none ∧
    (∀ m, deliveryResult o = .error m →
      LogEntry.error m ∈ (sendMetrics url token metrics o).logs) ∧
    (∀ i m, i < (sendEvents url token events b).requests.length →
      deliveryResult (b i) = .error m →
      LogEntry.error m ∈ (sendEvents url token events b).logs) := by
  refine ⟨?_, ?_, ?_, ?_⟩
  · cases h : deliveryResult o <;> simp [sendMetrics, h]
  · simp [sendEvents, sendEventsFrom_raised]
  · intro m hm
    simp [sendMetrics, hm]
  · intro i m hi he
    have hlog := sendEventsFrom_error_logged url (getClient token "application/json")
      b events 0 i m (by simpa [sendEvents] using hi) (by simpa using he)
    simp only [sendEvents, List.mem_cons]
    exact Or.inr hlog

/-- Witness for C3: a metric delivery answered with status 500 and an event
delivery that throws a connection error are both only logged, and neither
run raises. -/
theorem delivery_failures_not_propagated_witness :
    (sendMetrics "https://dt" "tok" [] (.response (some 500) "boom")).raised = none ∧
    (sendEvents "https://dt" "tok"
        [⟨"CUSTOM_INFO", "GitHub", none, none, none, none, none, none, none, none, none,
          none⟩]
        (fun _ => .connectionError "down")).raised = none ∧
    LogEntry.error "HTTP request failed: boom" ∈
      (sendMetrics "https://dt" "tok" [] (.response (some 500) "boom")).logs ∧
    LogEntry.error "down" ∈
      (sendEvents "https://dt" "tok"
        [⟨"CUSTOM_INFO", "GitHub", none, none, none, none, none, none, none, none, none,
          none⟩]
        (fun _ => .connectionError "down")).logs := by
  obtain ⟨h1, h2, h3, h4⟩ := delivery_failures_not_propagated "https://dt" "tok" []
    [⟨"CUSTOM_INFO", "GitHub", none, none, none, none, none, none, none, none, none,
      none⟩]
    (.response (some 500) "boom") (fun _ => .connectionError "down")
  exact ⟨h1, h2, h3 "HTTP request failed: boom" rfl, h4 0 "down" (by decide) rfl⟩

lemma toNat_ofNat_of_valid {n : Nat} (h : n < 55296) : (Char.ofNat n).toNat = n := by
  unfold Char.ofNat
  rw [dif_pos (Or.inl h)]
  rfl

lemma jsLowerChar_toNat (c : Char) :
    (jsLowerChar c).toNat =
      if 65 ≤ c.toNat ∧ c.toNat ≤ 90 then c.toNat + 32 else c.toNat := by
  unfold jsLowerChar
  by_cases h : 65 ≤ c.toNat ∧ c.toNat ≤ 90
  · rw [if_pos h, if_pos h, toNat_ofNat_of_valid (by omega)]
  · rw [if_neg h, if_neg h]

lemma keepChar_iff (c : Char) :
    keepChar c = true ↔
      c.toNat = 46 ∨ (48 ≤ c.toNat ∧ c.toNat ≤ 57) ∨ (97 ≤ c.toNat ∧ c.toNat ≤ 122) ∨
        (65 ≤ c.toNat ∧ c.toNat ≤ 90) ∨ c.toNat = 95 ∨ c.toNat = 45 := by
  simp [keepChar, Bool.or_eq_true, Bool.and_eq_true, decide_eq_true_eq]
  tauto

lemma isSafeChar_iff (c : Char) :
    isSafeChar c = true ↔
      c.toNat = 46 ∨ (48 ≤ c.toNat ∧ c.toNat ≤ 57) ∨ (97 ≤ c.toNat ∧ c.toNat ≤ 122) ∨
        c.toNat = 95 ∨ c.toNat = 45 := by
  simp [isSafeChar, Bool.or_eq_true, Bool.and_eq_true, decide_eq_true_eq]
  tauto

lemma isUpperAscii_false_iff (c : Char) :
    isUpperAscii c = false ↔ ¬(65 ≤ c.toNat ∧ c.toNat ≤ 90) := by
  simp [isUpperAscii, Bool.and_eq_true, decide_eq_true_eq]

lemma sanitizeChar_safe (c : Char) :
    isSafeChar (if keepChar (jsLowerChar c) then jsLowerChar c else '_') = true ∧
    isUpperAscii (if keepChar (jsLowerChar c) then jsLowerChar c else '_') = false := by
  have hL := jsLowerChar_toNat c
  by_cases hk : keepChar (jsLowerChar c) = true
  · rw [if_pos hk]
    rw [keepChar_iff] at hk
    rw [isSafeChar_iff, isUpperAscii_false_iff]
    by_cases h65 : 65 ≤ c.toNat ∧ c.toNat ≤ 90
    · rw [if_pos h65] at hL
      omega
    · rw [if_neg h65] at hL
      omega
  · rw [if_neg hk]
    constructor <;> rfl

lemma jsLowerChar_fixed_of_safe (d : Char) (h : isSafeChar d = true) :
    jsLowerChar d = d := by
  rw [isSafeChar_iff] at h
  unfold jsLowerChar
  rw [if_neg (by omega)]

lemma sanitizeChar_fixed_of_safe (d : Char) (h : isSafeChar d = true) :
    (if keepChar (jsLowerChar d) then jsLowerChar d else '_') = d := by
  rw [jsLowerChar_fixed_of_safe d h]
  rw [if_pos ?_]
  rw [keepChar_iff]
  rw [isSafeChar_iff] at h
  omega

lemma safeMetricKey_data (s : String) :
    (safeMetricKey s).data =
      s.data.map (fun c => if keepChar (jsLowerChar c) then jsLowerChar c else '_') := by
  simp only [safeMetricKey, jsReplaceUnsafe, jsToLowerCase, List.map_map]
  rfl

/-- C8: `safeMetricKey` is total and pure by construction; for every string
its output consists only of characters of the class `[.0-9a-z_-]` (codes 46,
48–57, 97–122, 95, 45) — in particular no uppercase letters — and it is
idempotent. -/
theorem sanitizer_safe_and_idempotent (s : String) :
    ((safeMetricKey s).data.all (fun c => isSafeChar c && !(isUpperAscii c))) = true ∧
    safeMetricKey (safeMetricKey s) = safeMetricKey s := by
  have hsafe : ∀ d ∈ (safeMetricKey s).data, isSafeChar d = true := by
    rw [safeMetricKey_data]
    intro d hd
    rw [List.mem_map] at hd
    obtain ⟨a, _, rfl⟩ := hd
    exact (sanitizeChar_safe a).1
  constructor
  · rw [List.all_eq_true]
    intro c hc
    have h1 := hsafe c hc
    have h2 : isUpperAscii c = false := by
      rw [isUpperAscii_false_iff]
      rw [isSafeChar_iff] at h1
      omega
    simp [h1, h2]
  · have hdata : (safeMetricKey (safeMetricKey s)).data = (safeMetricKey s).data := by
      rw [safeMetricKey_data (safeMetricKey s)]
      calc (safeMetricKey s).data.map
            (fun c => if keepChar (jsLowerChar c) then jsLowerChar c else '_')
          = (safeMetricKey s).data.map id := by
            apply List.map_congr_left
            intro a ha
            exact sanitizeChar_fixed_of_safe a (hsafe a ha)
        _ = (safeMetricKey s).data := List.map_id _
    cases hk : safeMetricKey (safeMetricKey s)
    cases hk2 : safeMetricKey s
    rw [hk, hk2] at hdata
    simp only [] at hdata
    exact congrArg String.mk hdata

end Dynatrace
